import Mathlib

/-!
# Verification of the MEPS ESI-population weight pipeline (`meps.go`)

Shallow embedding of the core logic of `meps.go`:

* the SAS-layout schema extractor (`getvinf` and its inner `process` helper),
* the record classifier and per-stratum weight aggregator (`getpopw`).

Modelling conventions:

* Go `float64` field values are modelled as `ℚ`; every operation the
  program performs on them (comparison with small integer constants,
  subtracting 1, small-integer linear combinations, truncating `int(...)`
  conversion) is exact on `float64` for the magnitudes involved, so `ℚ`
  is a faithful stand-in.
* Go `int` is modelled as `ℤ` (the values involved are tiny; Go's 64-bit
  overflow is unreachable for them).
* Go maps (`map[string][2]int`) are modelled as association lists where an
  update conses a new binding that shadows older ones; `lookup` agrees with
  Go map indexing, and reading a missing key yields the Go zero value
  `[2]int{0,0}` via `Option.getD`.
* Strings are ASCII in the data files, so Go byte indexing/slicing agrees
  with character indexing; a Go slice-bounds panic, index-out-of-range
  panic, or `panic(err)` is modelled as an `Except.error`.
-/

namespace MEPS

/-- Errors corresponding to the panics of `meps.go`: slice-bounds violation,
token-index out of range (`toks[1]`/`toks[2]`), `strconv.Atoi` failure,
`strconv.ParseFloat` failure, and slice index out of range
(`sampsize[stratum]`). -/
inductive Err where
  | slice : Err
  | tokens : Err
  | atoi : Err
  | float : Err
  | index : Err
  deriving DecidableEq

/-! ## String primitives (Go standard library operations used by the source) -/

/-- Digit run to a natural number (helper for the numeric parsers). -/
def digitsToNat (cs : List Char) : ℕ :=
  cs.foldl (fun a c => 10 * a + (c.toNat - '0'.toNat)) 0

/-- All characters are decimal digits. -/
def allDigits (cs : List Char) : Bool :=
  cs.all Char.isDigit

/-- Split an optional leading sign off a character list. -/
def splitSign : List Char → ℤ × List Char
  | '+' :: r => (1, r)
  | '-' :: r => (-1, r)
  | r => (1, r)

/-- Model of `strconv.Atoi`: optional sign followed by at least one digit and
nothing else; anything else is an error (`none`). -/
def goAtoi (s : String) : Option ℤ :=
  let p := splitSign s.toList
  if p.2 ≠ [] ∧ allDigits p.2 then some (p.1 * digitsToNat p.2) else none

/-- Model of `strconv.ParseFloat` restricted to the plain decimal shapes that occur
in the fixed-width data: optional sign, digits with at most one decimal
point, at least one digit overall.  Exponent/Inf/NaN/hex forms, which never
occur in these files, are rejected. -/
def goParseFloat (s : String) : Option ℚ :=
  let p := splitSign s.toList
  let ip := p.2.takeWhile (· ≠ '.')
  let rest := p.2.dropWhile (· ≠ '.')
  match rest with
  | [] =>
      if ip ≠ [] ∧ allDigits ip then some ((p.1 : ℚ) * digitsToNat ip) else none
  | _ :: fp =>
      if (ip ≠ [] ∨ fp ≠ []) ∧ allDigits ip ∧ allDigits fp then
        some ((p.1 : ℚ) * ((digitsToNat ip : ℚ) + (digitsToNat fp : ℚ) / (10 ^ fp.length)))
      else none

/-- Accumulating splitter behind `fields`: `acc` holds the (reversed)
characters of the token in progress. -/
def fieldsAux (acc : List Char) : List Char → List String
  | [] => if acc.isEmpty then [] else [String.mk acc.reverse]
  | c :: rest =>
    if c.isWhitespace then
      if acc.isEmpty then fieldsAux [] rest
      else String.mk acc.reverse :: fieldsAux [] rest
    else fieldsAux (c :: acc) rest

/-- Model of `strings.Fields`: split on whitespace runs, dropping empty pieces. -/
def fields (s : String) : List String :=
  fieldsAux [] s.toList

/-- Model of `strings.TrimLeft(s, cutset)` for a one-character cutset: drop every
leading occurrence of `c`. -/
def trimLeftChar (c : Char) (s : String) : String :=
  String.mk (s.toList.dropWhile (· = c))

/-- Does `pat` occur as a contiguous substring of `s`?  (`strings.Contains`.) -/
def infixAux (pat : List Char) : List Char → Bool
  | [] => pat.isEmpty
  | c :: rest => pat.isPrefixOf (c :: rest) || infixAux pat rest

/-- Model of `strings.Contains s pat`. -/
def hasSubstr (s pat : String) : Bool :=
  infixAux pat.toList s.toList

/-- Model of `strings.HasPrefix s pre`. -/
def goStartsWith (s pre : String) : Bool :=
  pre.toList.isPrefixOf s.toList

/-- Model of `strings.Split(s, ".")[0]`: the prefix of `s` before its first decimal
point (the source reads only index 0 of the split). -/
def headBeforeDot (s : String) : String :=
  String.mk (s.toList.takeWhile (· ≠ '.'))

/-- The character length of a line (equals Go's byte length on the ASCII
data these files hold). -/
def strLen (s : String) : ℕ :=
  s.toList.length

/-- Go slice `line[n:]`: defined when `n ≤ len(line)`, otherwise a
slice-bounds panic. -/
def goSliceFrom (line : String) (n : ℕ) : Except Err String :=
  if n ≤ strLen line then .ok (String.mk (line.toList.drop n)) else .error .slice

/-- Go slice `line[start:stop]`: defined when `0 ≤ start ≤ stop ≤ len(line)`,
otherwise a slice-bounds panic. -/
def goSlice (line : String) (start stop : ℤ) : Except Err String :=
  if 0 ≤ start ∧ start ≤ stop ∧ stop ≤ (strLen line : ℤ) then
    .ok (String.mk (((line.toList.drop start.toNat).take (stop - start).toNat)))
  else .error .slice

/-! ## Go map model -/

/-- The variable-description map `map[string][2]int`, as an association
list; newer bindings shadow older ones. -/
abbrev Vdef : Type := List (String × (ℤ × ℤ))

/-- Go map read `vdef[vname]` (first matching binding wins). -/
def lookupV (m : Vdef) (k : String) : Option (ℤ × ℤ) :=
  List.lookup k m

/-- Go map write `vdef[vname] = v`: the new binding shadows any prior one. -/
def updV (m : Vdef) (k : String) (v : ℤ × ℤ) : Vdef :=
  (k, v) :: m

/-! ## Schema extractor (`getvinf` and its inner `process`, meps.go:73-142) -/

/-- The position token processing of `process` (meps.go:94-99 before the
`-1` shift): `strconv.Atoi(strings.TrimLeft(toks[0], "@"))`. -/
def posTokVal (t : String) : Option ℤ :=
  goAtoi (trimLeftChar '@' t)

/-- The width token processing of `process` (meps.go:102-110):
strip a leading `$` cutset, cut at the first decimal point if one occurs,
then `strconv.Atoi`. -/
def widthTokVal (t : String) : Option ℤ :=
  let w := trimLeftChar '$' t
  let w := if hasSubstr w "." then headBeforeDot w else w
  goAtoi w

/-- Model of `process` (meps.go:89-113): update the variable description for one
descriptor line.  Field order and failure order follow the source:
`toks[1]` is read first (index panic when fewer than two tokens), then the
position token is parsed (`Atoi` panic), then `toks[2]` is read (index
panic when fewer than three tokens), then the width token is parsed. -/
def process (vdef : Vdef) (line : String) : Except Err Vdef :=
  let toks := fields line
  match toks.get? 1 with
  | none => .error .tokens
  | some vname =>
    match posTokVal (toks.getD 0 "") with
    | none => .error .atoi
    | some ipos =>
      match toks.get? 2 with
      | none => .error .tokens
      | some t2 =>
        match widthTokVal t2 with
        | none => .error .atoi
        | some iw => .ok (updV vdef vname (ipos - 1, iw))

/-- The first scanner loop of `getvinf` (meps.go:116-122): skip lines until
one contains `"INPUT @1"`; return that line and the remaining lines.  If
the scanner runs dry the loop simply ends (`rdr.Err()` is `nil` at EOF). -/
def findMarker : List String → Option (String × List String)
  | [] => none
  | l :: rest => if hasSubstr l "INPUT @1" then some (l, rest) else findMarker rest

/-- The second scanner loop of `getvinf` (meps.go:127-136): process
`line[5:]` of each line until a line starting with `";"`, or EOF. -/
def getvinfLoop (vdef : Vdef) : List String → Except Err Vdef
  | [] => .ok vdef
  | l :: rest =>
    if goStartsWith l ";" then .ok vdef
    else
      match goSliceFrom l 5 with
      | .error e => .error e
      | .ok s =>
        match process vdef s with
        | .error e => .error e
        | .ok vdef2 => getvinfLoop vdef2 rest

/-- Model of `getvinf` (meps.go:73-142) on the lines of the SAS format file: find the
`"INPUT @1"` marker line, process its tail `line[5:]`, then process each
following line until the `";"` terminator.  When the marker is never found,
the first loop ends at EOF without error and the function returns the empty
map. -/
def getvinf (doc : List String) : Except Err Vdef :=
  match findMarker doc with
  | none => .ok []
  | some (l, rest) =>
    match goSliceFrom l 5 with
    | .error e => .error e
    | .ok s =>
      match process [] s with
      | .error e => .error e
      | .ok vdef => getvinfLoop vdef rest

/-! ## Record classifier (`getpopw` loop body, meps.go:179-227) -/

/-- Go `int(x)` on `float64`: truncation toward zero. -/
def ratTrunc (q : ℚ) : ℤ :=
  if q < 0 then ⌈q⌉ else ⌊q⌋

/-- The tail of the classification after the age stratum is fixed
(meps.go:212-224): region check and normalization, emprel check and
normalization, then the stratum formula
`int(1 + female + 2*emprel + 4*age + 8*region)`.  `f` is the already
normalized `female` value. -/
def classTail (f age region emprel : ℚ) : Option ℤ :=
  if region < 0 then none
  else if emprel = -1 then none
  else some (ratTrunc (1 + f + 2 * (emprel - 1) + 4 * age + 8 * (region - 1)))

/-- The classification applied to the decoded values after the insurance
check (meps.go:193-224): sex check and normalization, age stratum from the
fixed cutoffs `2009-65`, `2012-45`, `2012-18` (written exactly as in the
source), then `classTail`. -/
def classifyRest (dobyy region emprel female : ℚ) : Option ℤ :=
  if female ≠ 1 ∧ female ≠ 2 then none
  else if dobyy < 2009 - 65 then none
  else if dobyy < 2012 - 45 then classTail (female - 1) 1 region emprel
  else if dobyy < 2012 - 18 then classTail (female - 1) 0 region emprel
  else none

/-- The full per-record classification of `getpopw` (meps.go:183-224) as a
function of the decoded field values: `none` means the record is skipped
(`continue`), `some s` means weight is added to stratum `s`. -/
def classify (insur dobyy region emprel female : ℚ) : Option ℤ :=
  if insur ≠ 1 then none
  else classifyRest dobyy region emprel female

/-- Modelled from the spec: the classifier as §4.2 of the specification
words it, with the three age cutoffs computed from a per-year reference
point `ry` (`ry - 65`, `ry + 3 - 45`, `ry + 3 - 18`); all other checks as
in the source.  Used only to compare the specification's per-year reading
against the source's fixed constants. -/
def classifySpecRef (ry insur dobyy region emprel female : ℚ) : Option ℤ :=
  if insur ≠ 1 then none
  else if female ≠ 1 ∧ female ≠ 2 then none
  else if dobyy < ry - 65 then none
  else if dobyy < ry + 3 - 45 then classTail (female - 1) 1 region emprel
  else if dobyy < ry + 3 - 18 then classTail (female - 1) 0 region emprel
  else none

/-- The five exclusion checks as the claims state them: insurance equals 1,
sex in {1,2}, birth year in the eligible band given by the source cutoffs,
region at least the coded minimum (0), employment relation not `-1`. -/
def fiveChecksPass (insur dobyy region emprel female : ℚ) : Prop :=
  insur = 1 ∧ (female = 1 ∨ female = 2) ∧
    (2009 - 65 ≤ dobyy ∧ dobyy < 2012 - 18) ∧ 0 ≤ region ∧ emprel ≠ -1

instance (i d r e f : ℚ) : Decidable (fiveChecksPass i d r e f) := by
  unfold fiveChecksPass; infer_instance

/-- The years processed by `main` (meps.go:238). -/
def years : List ℤ :=
  [2009, 2010, 2011, 2012, 2013, 2014, 2015]

/-! ## Aggregator (`getpopw`, meps.go:144-234) -/

/-- Model of `ext` (meps.go:168-177): look the variable up in `vdef` (a missing name
yields the Go zero value `[2]int{0,0}`), slice the record line at
`[start:start+width]`, and parse the slice as a float; a parse failure or
slice-bounds violation panics. -/
def ext (vdef : Vdef) (line vname : String) : Except Err ℚ :=
  let u := (lookupV vdef vname).getD (0, 0)
  match goSlice line u.1 (u.1 + u.2) with
  | .error e => .error e
  | .ok s =>
    match goParseFloat s with
    | some x => .ok x
    | none => .error .float

/-- One iteration of the record loop of `getpopw` (meps.go:179-224) up to
the stratum computation: extract the insurance flag first and skip the
record if it is not 1 (no other field is decoded in that case); otherwise
extract `DOBYY`, region, weight, emprel and `SEX` in source order and
classify.  `ys` is the 2-digit year string, `wv` the weight variable name.
Result: `none` = record skipped, `some (s, w)` = weight `w` goes to
stratum `s`. -/
def procLine (vdef : Vdef) (ys wv : String) (line : String) :
    Except Err (Option (ℤ × ℚ)) :=
  match ext vdef line ("PEGJA" ++ ys) with
  | .error e => .error e
  | .ok insur =>
    if insur ≠ 1 then .ok none
    else
      match ext vdef line "DOBYY" with
      | .error e => .error e
      | .ok dobyy =>
        match ext vdef line ("REGION" ++ ys) with
        | .error e => .error e
        | .ok region =>
          match ext vdef line wv with
          | .error e => .error e
          | .ok wgt =>
            match ext vdef line ("HPEJA" ++ ys) with
            | .error e => .error e
            | .ok emprel =>
              match ext vdef line "SEX" with
              | .error e => .error e
              | .ok female =>
                .ok ((classifyRest dobyy region emprel female).map
                  (fun s => (s, wgt)))

/-- Model of `sampsize[stratum] += wgt` (meps.go:226): in-bounds update of the
accumulator, index-out-of-range panic otherwise. -/
def popwStep (vdef : Vdef) (ys wv : String) (samp : List ℚ) (line : String) :
    Except Err (List ℚ) :=
  match procLine vdef ys wv line with
  | .error e => .error e
  | .ok none => .ok samp
  | .ok (some (s, w)) =>
    if 0 ≤ s ∧ s < (samp.length : ℤ) then
      .ok (samp.set s.toNat (samp.getD s.toNat 0 + w))
    else .error .index

/-- The record loop of `getpopw` over the decompressed lines. -/
def popwLoop (vdef : Vdef) (ys wv : String) (samp : List ℚ) :
    List String → Except Err (List ℚ)
  | [] => .ok samp
  | l :: rest =>
    match popwStep vdef ys wv samp l with
    | .error e => .error e
    | .ok samp2 => popwLoop vdef ys wv samp2 rest

/-- Model of `getpopw` (meps.go:144-234) restricted to its core: starting from the
33-entry zero vector `sampsize`, fold the record loop over the decompressed
lines of the data file. -/
def getpopwLines (vdef : Vdef) (ys wv : String) (lines : List String) :
    Except Err (List ℚ) :=
  popwLoop vdef ys wv (List.replicate 33 0) lines

/-- The weight one line contributes to stratum `s`: its decoded weight when
it is classified into `s`, and 0 otherwise. -/
def lineContrib (vdef : Vdef) (ys wv : String) (s : ℕ) (l : String) : ℚ :=
  match procLine vdef ys wv l with
  | .ok (some (s', w)) => if s' = (s : ℤ) then w else 0
  | _ => 0

/-- The total decoded weight that the stream's records send to stratum `s`
(the claims' reference value: sum, over the lines classified into `s`, of
the decoded weight). -/
def stratumWeight (vdef : Vdef) (ys wv : String) (s : ℕ) (lines : List String) : ℚ :=
  (lines.map (lineContrib vdef ys wv s)).sum

/-! ## The data-file open step (`getpopw`, meps.go:156-159) -/

/-- The guard on the result of opening the data file, exactly as the source
writes it (meps.go:157): `if err != err { panic(err) }`.  The argument is
the `err` value returned by `os.Open` (`none` = `nil`). -/
def openErrGuard (err : Option String) : Bool :=
  err ≠ err

/-- The open step of `getpopw` (meps.go:156-160): on success processing
continues with a valid handle (`.ok true`); on failure the guard
`err != err` decides between panicking (`.error`) and continuing with the
`nil` handle (`.ok false`). -/
def openStep (openResult : Except String Unit) : Except String Bool :=
  match openResult with
  | .ok _ => if openErrGuard none then .error "" else .ok true
  | .error e => if openErrGuard (some e) then .error e else .ok false

/-! ## Classifier lemmas -/

lemma ratTrunc_intCast (n : ℤ) : ratTrunc (n : ℚ) = n := by
  unfold ratTrunc
  split_ifs with h
  · exact Int.ceil_intCast n
  · exact Int.floor_intCast n

lemma ratTrunc_bounds {q : ℚ} (h1 : 1 ≤ q) (h2 : q ≤ 32) :
    1 ≤ ratTrunc q ∧ ratTrunc q ≤ 32 := by
  unfold ratTrunc
  rw [if_neg (by linarith)]
  constructor
  · exact_mod_cast Int.le_floor.mpr (by exact_mod_cast h1)
  · have := (Int.floor_le q).trans h2
    exact_mod_cast this

/-- Value of `classify` when every check passes: the truncated stratum
formula with the normalized attributes. -/
lemma classify_eq (i d r e f : ℚ) (hi : i = 1) (hf : f = 1 ∨ f = 2)
    (hd1 : ¬d < 2009 - 65) (hd2 : d < 2012 - 18) (hr : ¬r < 0) (he : e ≠ -1) :
    classify i d r e f =
      some (ratTrunc (1 + (f - 1) + 2 * (e - 1) +
        4 * (if d < 2012 - 45 then (1 : ℚ) else 0) + 8 * (r - 1))) := by
  unfold classify classifyRest classTail
  rw [if_neg (by simp [hi])]
  rw [if_neg (by rcases hf with h | h <;> simp [h])]
  rw [if_neg hd1]
  by_cases hd3 : d < 2012 - 45
  · rw [if_pos hd3, if_neg hr, if_neg he, if_pos hd3]
  · rw [if_neg hd3, if_pos hd2, if_neg hr, if_neg he, if_neg hd3]

/-- Characterization of when `classify` assigns a stratum: exactly when the
five exclusion checks pass. -/
lemma classify_some_iff (i d r e f : ℚ) :
    (∃ s, classify i d r e f = some s) ↔ fiveChecksPass i d r e f := by
  constructor
  · rintro ⟨s, hs⟩
    unfold classify classifyRest classTail at hs
    by_cases h1 : i ≠ 1
    · rw [if_pos h1] at hs; exact absurd hs (by simp)
    rw [if_neg h1] at hs
    push_neg at h1
    by_cases h2 : f ≠ 1 ∧ f ≠ 2
    · rw [if_pos h2] at hs; exact absurd hs (by simp)
    rw [if_neg h2] at hs
    have hfem : f = 1 ∨ f = 2 := by
      rcases not_and_or.mp h2 with h | h
      · exact Or.inl (not_not.mp h)
      · exact Or.inr (not_not.mp h)
    by_cases h3 : d < 2009 - 65
    · rw [if_pos h3] at hs; exact absurd hs (by simp)
    rw [if_neg h3] at hs
    have hband : 2009 - 65 ≤ d := not_lt.mp h3
    by_cases h4 : d < 2012 - 45
    · rw [if_pos h4] at hs
      by_cases h5 : r < 0
      · rw [if_pos h5] at hs; exact absurd hs (by simp)
      rw [if_neg h5] at hs
      by_cases h6 : e = -1
      · rw [if_pos h6] at hs; exact absurd hs (by simp)
      exact ⟨h1, hfem, ⟨hband, by linarith⟩, not_lt.mp h5, h6⟩
    rw [if_neg h4] at hs
    by_cases h7 : d < 2012 - 18
    · rw [if_pos h7] at hs
      by_cases h5 : r < 0
      · rw [if_pos h5] at hs; exact absurd hs (by simp)
      rw [if_neg h5] at hs
      by_cases h6 : e = -1
      · rw [if_pos h6] at hs; exact absurd hs (by simp)
      exact ⟨h1, hfem, ⟨hband, h7⟩, not_lt.mp h5, h6⟩
    · rw [if_neg h7] at hs; exact absurd hs (by simp)
  · rintro ⟨h1, h2, ⟨h3, h4⟩, h5, h6⟩
    exact ⟨_, classify_eq i d r e f h1 h2 (not_lt.mpr h3) h4 (not_lt.mpr h5) h6⟩

/-! ## Claim C1 -/

/-- C1, counterexample: the record with insurance 1, birth year 1980,
region 0, emprel 1, sex 1 passes all five exclusion checks, yet the
classifier assigns it stratum -7, which is outside [1,32].  This refutes
the claim that a stratum in [1,32] is assigned iff the five checks pass. -/
theorem classify_C1_counterexample :
    fiveChecksPass 1 1980 0 1 1 ∧ classify 1 1980 0 1 1 = some (-7) ∧
      ¬(1 ≤ (-7 : ℤ) ∧ (-7 : ℤ) ≤ 32) :=
  ⟨by norm_num [fiveChecksPass],
   by norm_num [classify, classifyRest, classTail, ratTrunc, Int.ceil_neg],
   by decide⟩

/-- C1, amended: the classifier assigns some stratum iff all five exclusion
checks pass; the assigned stratum lies in [1,32] when additionally the raw
region code is one of the coded values {1,2,3,4} and the raw
employment-relation code one of {1,2}.  (Without that extra restriction a
record passing all five checks can receive a stratum outside [1,32].) -/
theorem classify_C1_amended :
    (∀ i d r e f : ℚ, (∃ s, classify i d r e f = some s) ↔ fiveChecksPass i d r e f) ∧
    (∀ i d r e f : ℚ, ∀ s : ℤ, fiveChecksPass i d r e f →
      (r = 1 ∨ r = 2 ∨ r = 3 ∨ r = 4) → (e = 1 ∨ e = 2) →
      classify i d r e f = some s → 1 ≤ s ∧ s ≤ 32) := by
  refine ⟨classify_some_iff, ?_⟩
  rintro i d r e f s ⟨h1, h2, ⟨h3, h4⟩, h5, h6⟩ hr he hcl
  rw [classify_eq i d r e f h1 h2 (not_lt.mpr h3) h4 (not_lt.mpr h5) h6] at hcl
  have hs : s = ratTrunc (1 + (f - 1) + 2 * (e - 1) +
      4 * (if d < 2012 - 45 then (1 : ℚ) else 0) + 8 * (r - 1)) :=
    (Option.some.injEq _ _ ▸ hcl).symm
  have hf' : 0 ≤ f - 1 ∧ f - 1 ≤ 1 := by rcases h2 with h | h <;> rw [h] <;> norm_num
  have he' : 0 ≤ e - 1 ∧ e - 1 ≤ 1 := by
    rcases he with h | h <;> rw [h] <;> norm_num
  have hr' : 0 ≤ r - 1 ∧ r - 1 ≤ 3 := by
    rcases hr with h | h | h | h <;> rw [h] <;> norm_num
  have ha : 0 ≤ (if d < 2012 - 45 then (1 : ℚ) else 0) ∧
      (if d < 2012 - 45 then (1 : ℚ) else 0) ≤ 1 := by
    split <;> norm_num
  have hb := ratTrunc_bounds (q := 1 + (f - 1) + 2 * (e - 1) +
      4 * (if d < 2012 - 45 then (1 : ℚ) else 0) + 8 * (r - 1))
    (by linarith [hf'.1, he'.1, hr'.1, ha.1])
    (by linarith [hf'.2, he'.2, hr'.2, ha.2])
  rw [hs]
  exact hb

/-- C1, witness: at insurance 1, birth year 1980, region 2, emprel 1,
sex 2 the hypotheses of the amended theorem hold and the assigned
stratum 10 is inside [1,32]. -/
theorem classify_C1_witness :
    classify 1 1980 2 1 2 = some 10 ∧ ((1 : ℤ) ≤ 10 ∧ (10 : ℤ) ≤ 32) :=
  ⟨by norm_num [classify, classifyRest, classTail, ratTrunc],
   classify_C1_amended.2 1 1980 2 1 2 10
     (by norm_num [fiveChecksPass]) (by norm_num) (by norm_num)
     (by norm_num [classify, classifyRest, classTail, ratTrunc])⟩

/-! ## Claim C2 -/

/-- C2, counterexample: 2015 is one of the processed years, and for a
record with birth year 1946 the source classifier (fixed cutoffs
`2009-65`, `2012-45`, `2012-18` for every year) assigns stratum 6, while
the claimed per-year cutoffs (`referenceYear - 65` etc. with reference
year 2015) would exclude the record as too old.  So the cutoffs are not
computed from the processed year's reference point. -/
theorem classify_C2_counterexample :
    (2015 : ℤ) ∈ years ∧ classify 1 1946 1 1 2 = some 6 ∧
      classifySpecRef 2015 1 1946 1 1 2 = none :=
  ⟨by decide,
   by norm_num [classify, classifyRest, classTail, ratTrunc],
   by norm_num [classifySpecRef, classTail]⟩

/-- C2, amended: for every processed year the classifier uses the same
fixed age-band cutoffs, the ones obtained from reference year 2009
(`dobyy < 2009-65` excludes as too old, `dobyy < 2012-45` gives age
stratum 1, `dobyy < 2012-18` gives age stratum 0, otherwise too young);
the cutoffs do not vary with the year being processed.  Formally, the
source classifier coincides with the specification's reference-year
classifier instantiated at the constant reference year 2009. -/
theorem classify_C2_amended :
    ∀ i d r e f : ℚ, classify i d r e f = classifySpecRef 2009 i d r e f := by
  intro i d r e f
  unfold classify classifyRest classifySpecRef
  norm_num

/-! ## Claim C5 -/

/-- C5: with the four earlier checks passing (insurance 1, valid sex,
eligible birth year, nonnegative region), the record is excluded by the
employment-relation check exactly when the raw decoded value equals -1;
when the raw value differs from -1 the record is kept and the stratum
formula uses the normalized value `emprel - 1` (so raw 0 is kept and
normalizes to -1). -/
theorem classify_C5_emprel_raw (d r f : ℚ)
    (hf : f = 1 ∨ f = 2) (hd1 : ¬d < 2009 - 65) (hd2 : d < 2012 - 18)
    (hr : ¬r < 0) :
    ∀ e : ℚ,
      (classify 1 d r e f = none ↔ e = -1) ∧
      (e ≠ -1 → classify 1 d r e f =
        some (ratTrunc (1 + (f - 1) + 2 * (e - 1) +
          4 * (if d < 2012 - 45 then (1 : ℚ) else 0) + 8 * (r - 1)))) := by
  intro e
  refine ⟨⟨?_, ?_⟩, fun he => classify_eq 1 d r e f rfl hf hd1 hd2 hr he⟩
  · intro hnone
    by_contra he
    rw [classify_eq 1 d r e f rfl hf hd1 hd2 hr he] at hnone
    exact Option.some_ne_none _ hnone
  · intro he
    unfold classify classifyRest classTail
    rw [if_neg (by norm_num)]
    rw [if_neg (by rcases hf with h | h <;> simp [h])]
    rw [if_neg hd1]
    by_cases hd3 : d < 2012 - 45
    · rw [if_pos hd3, if_neg hr, if_pos he]
    · rw [if_neg hd3, if_pos hd2, if_neg hr, if_pos he]

/-- C5, witness: insurance 1, birth year 1980, region 1, sex 2 and raw
emprel 0: the record is not excluded by the emprel check and the
normalized emprel `-1` enters the formula, giving stratum 0. -/
theorem classify_C5_witness :
    classify 1 1980 1 0 2 = some 0 ∧ classify 1 1980 1 0 2 ≠ none := by
  have h := (classify_C5_emprel_raw 1980 1 2 (Or.inr rfl)
    (by norm_num) (by norm_num) (by norm_num) 0).2 (by norm_num)
  have hv : ratTrunc (1 + ((2 : ℚ) - 1) + 2 * (0 - 1) +
      4 * (if (1980 : ℚ) < 2012 - 45 then (1 : ℚ) else 0) + 8 * (1 - 1)) = 0 := by
    norm_num [ratTrunc]
  rw [hv] at h
  exact ⟨h, by simp [h]⟩

/-! ## Claim C8 -/

/-- The stratum encoding of meps.go:224 at integer attribute values:
`1 + female + 2*emprel + 4*age + 8*region`. -/
def encodeStratum (female emprel age region : ℤ) : ℤ :=
  1 + female + 2 * emprel + 4 * age + 8 * region

/-- The decoding of a stratum number given in the header comment
(meps.go:37-40).  On `s ∈ [1,32]` all operands are nonnegative, so Lean's
Euclidean `/` and `%` agree with Go's truncated division. -/
def decodeStratum (wgtkey : ℤ) : ℤ × ℤ × ℤ × ℤ :=
  ((wgtkey - 1) % 2, (wgtkey - 1) / 2 % 2, (wgtkey - 1) / 4 % 2, (wgtkey - 1) / 8)

/-- C8: decoding any stratum s in [1,32] and re-encoding reproduces s, and
the encoding maps {0,1}x{0,1}x{0,1}x{0,1,2,3} into [1,32] with the decode
as two-sided inverse — i.e. it is a bijection onto {1,...,32}. -/
theorem stratum_roundtrip_C8 :
    (∀ s : ℤ, 1 ≤ s → s ≤ 32 →
      encodeStratum (decodeStratum s).1 (decodeStratum s).2.1
        (decodeStratum s).2.2.1 (decodeStratum s).2.2.2 = s) ∧
    (∀ f e a r : ℤ, 0 ≤ f → f ≤ 1 → 0 ≤ e → e ≤ 1 → 0 ≤ a → a ≤ 1 →
      0 ≤ r → r ≤ 3 →
      1 ≤ encodeStratum f e a r ∧ encodeStratum f e a r ≤ 32 ∧
        decodeStratum (encodeStratum f e a r) = (f, e, a, r)) := by
  constructor
  · intro s h1 h2
    simp only [decodeStratum, encodeStratum]
    omega
  · intro f e a r hf1 hf2 he1 he2 ha1 ha2 hr1 hr2
    refine ⟨?_, ?_, ?_⟩
    · simp only [encodeStratum]; omega
    · simp only [encodeStratum]; omega
    · simp only [decodeStratum, encodeStratum, Prod.mk.injEq]
      omega

/-- C8, witness: round trip at stratum 5 and at the attribute tuple
(1,1,1,3). -/
theorem stratum_roundtrip_C8_witness :
    encodeStratum (decodeStratum 5).1 (decodeStratum 5).2.1
        (decodeStratum 5).2.2.1 (decodeStratum 5).2.2.2 = 5 ∧
      decodeStratum (encodeStratum 1 1 1 3) = (1, 1, 1, 3) :=
  ⟨stratum_roundtrip_C8.1 5 (by decide) (by decide),
   (stratum_roundtrip_C8.2 1 1 1 3 (by decide) (by decide) (by decide)
     (by decide) (by decide) (by decide) (by decide) (by decide)).2.2⟩

/-! ## Claim C4 -/

/-- C4: the source guards the result of opening the data file with
`if err != err` (meps.go:157), a self-comparison that is never true; so an
open failure is not reported — the code continues with the nil handle
instead of failing with an error identifying the open condition.  (The
claim's intended behavior requires `err != nil`; this is a slip in the
code.) -/
theorem openStep_C4_bug :
    (∀ e : String, openStep (.error e) = .ok false) ∧
      ∀ err : Option String, openErrGuard err = false := by
  constructor
  · intro e
    simp [openStep, openErrGuard]
  · intro err
    simp [openErrGuard]

/-! ## Claim C3 -/

/-- C3, counterexample: the one-line document `"hello"` contains no
`"INPUT @1"` section-start marker, yet the extractor does not fail: it
returns the empty map.  This refutes the claim that the extractor fails
for every document without the marker. -/
theorem getvinf_C3_counterexample :
    findMarker ["hello"] = none ∧ getvinf ["hello"] = .ok [] :=
  ⟨rfl, rfl⟩

/-- C3, amended: a descriptor line with fewer than three whitespace tokens
is a fatal error, and so is a position or width token that does not parse
as an integer; but a document in which the section-start marker never
occurs is NOT an error: the extractor returns the empty map. -/
theorem getvinf_C3_amended :
    (∀ doc : List String, findMarker doc = none → getvinf doc = .ok []) ∧
    (∀ (vdef : Vdef) (line : String), (fields line).length < 3 →
      ∃ er, process vdef line = .error er) ∧
    (∀ (vdef : Vdef) (line t0 t1 t2 : String) (rest : List String),
      fields line = t0 :: t1 :: t2 :: rest → posTokVal t0 = none →
      process vdef line = .error .atoi) ∧
    (∀ (vdef : Vdef) (line t0 t1 t2 : String) (rest : List String)
      (p : ℤ), fields line = t0 :: t1 :: t2 :: rest →
      posTokVal t0 = some p → widthTokVal t2 = none →
      process vdef line = .error .atoi) := by
  refine ⟨?_, ?_, ?_, ?_⟩
  · intro doc h
    unfold getvinf
    rw [h]
  · intro vdef line h
    unfold process
    rcases hl : fields line with _ | ⟨a, _ | ⟨b, _ | ⟨c, rest⟩⟩⟩
    · exact ⟨.tokens, by simp⟩
    · exact ⟨.tokens, by simp⟩
    · rcases hp : posTokVal a with _ | p
      · exact ⟨.atoi, by simp [hp]⟩
      · exact ⟨.tokens, by simp [hp]⟩
    · rw [hl] at h
      simp at h
      omega
  · intro vdef line t0 t1 t2 rest hl hp
    unfold process
    rw [hl]
    simp [hp]
  · intro vdef line t0 t1 t2 rest p hl hp hw
    unfold process
    rw [hl]
    simp [hp, hw]

/-- C3, witness: the three-token descriptor line `"@x FOO 7"` has a
position token that is not a valid integer after stripping the `@`, and
`process` fails with the Atoi error. -/
theorem getvinf_C3_witness : process [] "@x FOO 7" = .error .atoi :=
  getvinf_C3_amended.2.2.1 [] "@x FOO 7" "@x" "FOO" "7" [] (by decide) (by decide)

/-! ## Claim C7 -/

/-- C7: for every descriptor line with exactly three whitespace tokens
whose position token (after stripping the leading `@` cutset) parses as
the integer p and whose width token (after stripping the leading `$`
cutset and cutting at the first decimal point) parses as the integer w,
`process` records name -> (p-1, w), and looking the name up in the updated
map yields the new pair, shadowing any prior entry. -/
theorem process_C7 (vdef : Vdef) (line t0 t1 t2 : String)
    (htoks : fields line = [t0, t1, t2]) (p w : ℤ)
    (hp : posTokVal t0 = some p) (hw : widthTokVal t2 = some w) :
    process vdef line = .ok (updV vdef t1 (p - 1, w)) ∧
      lookupV (updV vdef t1 (p - 1, w)) t1 = some (p - 1, w) := by
  constructor
  · unfold process
    rw [htoks]
    simp [hp, hw]
  · simp [lookupV, updV, List.lookup]

/-- C7, witness: the line `"@10 FOO $5"` produces the entry
FOO -> (offset 9, width 5). -/
theorem process_C7_witness :
    process [] "@10 FOO $5" = .ok [("FOO", ((9 : ℤ), (5 : ℤ)))] ∧
      lookupV [("FOO", ((9 : ℤ), (5 : ℤ)))] "FOO" = some (9, 5) := by
  have h9 : (9 : ℤ) = 10 - 1 := by decide
  rw [h9]
  exact process_C7 [] "@10 FOO $5" "@10" "FOO" "$5" (by decide) 10 5
    (by decide) (by decide)

/-! ## Claim C10 -/

/-- C10: every line after the marker line and before the `";"` terminator
is sliced as `line[5:]` before tokenization, so a non-terminator line
shorter than five characters makes the extraction fail with a slice-bounds
error rather than being parsed or skipped.  (Here the marker line is a
well-formed concrete one; the failure is caused by the short line alone.) -/
theorem getvinf_C10_short_line (line : String) (rest : List String)
    (hlen : strLen line < 5) (hsemi : goStartsWith line ";" = false) :
    getvinf ("INPUT @1 DUID 7.0" :: line :: rest) = .error .slice := by
  have h0 : getvinf ("INPUT @1 DUID 7.0" :: line :: rest) =
      getvinfLoop [("DUID", (0, 7))] (line :: rest) := rfl
  have hs : goSliceFrom line 5 = .error .slice := by
    unfold goSliceFrom
    rw [if_neg (by omega)]
  rw [h0]
  unfold getvinfLoop
  simp [hsemi, hs]

/-- C10, witness: with the three-character line `"abc"` after the marker
line, extraction fails with the slice-bounds error. -/
theorem getvinf_C10_witness :
    getvinf ["INPUT @1 DUID 7.0", "abc"] = .error .slice :=
  getvinf_C10_short_line "abc" [] (by decide) (by decide)

/-! ## Claim C9 -/

/-- C9: when the insurance field of a record decodes to a value other
than 1, the record loop skips the record without decoding any other
field: the outcome is `.ok none` (no error, no stratum) for every line
whose insurance slice decodes to a non-1 value, whatever text the other
field slices hold. -/
theorem procLine_C9 (vdef : Vdef) (ys wv line : String) (v : ℚ)
    (hins : ext vdef line ("PEGJA" ++ ys) = .ok v) (hv : v ≠ 1) :
    procLine vdef ys wv line = .ok none := by
  unfold procLine
  rw [hins]
  exact if_pos hv

/-- C9, witness: with the insurance field at offset 0, width 1, the line
`"2x@!?"` (insurance 2, garbage elsewhere) is skipped with no decode
error. -/
theorem procLine_C9_witness :
    procLine [("PEGJA09", ((0 : ℤ), (1 : ℤ)))] "09" "W" "2x@!?" = .ok none := by
  have h2 : ext [("PEGJA09", ((0 : ℤ), (1 : ℤ)))] "2x@!?" ("PEGJA" ++ "09") =
      .ok (((1 : ℤ) : ℚ) * ((2 : ℕ) : ℚ)) := rfl
  have h3 : (((1 : ℤ) : ℚ) * ((2 : ℕ) : ℚ)) = 2 := by norm_num
  rw [h3] at h2
  exact procLine_C9 _ "09" "W" _ 2 h2 (by norm_num)

/-! ## Claim C6 -/

lemma getD_set_self (l : List ℚ) (i : ℕ) (x : ℚ) (h : i < l.length) :
    (l.set i x).getD i 0 = x := by
  simp [List.getD, List.getElem?_set_self', List.getElem?_eq_getElem h]

lemma getD_set_ne (l : List ℚ) (i j : ℕ) (x : ℚ) (h : i ≠ j) :
    (l.set i x).getD j 0 = l.getD j 0 := by
  simp [List.getD, List.getElem?_set_ne h]

lemma stratumWeight_cons (vdef : Vdef) (ys wv : String) (s : ℕ)
    (l : String) (rest : List String) :
    stratumWeight vdef ys wv s (l :: rest) =
      lineContrib vdef ys wv s l + stratumWeight vdef ys wv s rest := by
  simp [stratumWeight]

lemma lineContrib_skip (vdef : Vdef) (ys wv : String) (s : ℕ) (l : String)
    (hproc : procLine vdef ys wv l = .ok none) :
    lineContrib vdef ys wv s l = 0 := by
  unfold lineContrib
  rw [hproc]

lemma lineContrib_some (vdef : Vdef) (ys wv : String) (s : ℕ) (l : String)
    (s' : ℤ) (w : ℚ) (hproc : procLine vdef ys wv l = .ok (some (s', w))) :
    lineContrib vdef ys wv s l = if s' = (s : ℤ) then w else 0 := by
  unfold lineContrib
  rw [hproc]

/-- Invariant of the record loop: on success the accumulator length is
preserved and each entry grows by exactly the weight classified into it. -/
lemma popwLoop_ok (vdef : Vdef) (ys wv : String) :
    ∀ (lines : List String) (samp v : List ℚ),
      popwLoop vdef ys wv samp lines = .ok v →
      v.length = samp.length ∧
        ∀ s : ℕ, s < samp.length →
          v.getD s 0 = samp.getD s 0 + stratumWeight vdef ys wv s lines := by
  intro lines
  induction lines with
  | nil =>
    intro samp v h
    simp only [popwLoop, Except.ok.injEq] at h
    subst h
    simp [stratumWeight]
  | cons l rest ih =>
    intro samp v h
    unfold popwLoop at h
    rcases hstep : popwStep vdef ys wv samp l with e | samp2
    · rw [hstep] at h
      exact absurd h (by simp)
    rw [hstep] at h
    obtain ⟨hlen, hval⟩ := ih samp2 v h
    unfold popwStep at hstep
    rcases hproc : procLine vdef ys wv l with e | o
    · rw [hproc] at hstep
      exact absurd hstep (by simp)
    rw [hproc] at hstep
    rcases o with _ | ⟨s', w⟩
    · simp only [Except.ok.injEq] at hstep
      subst hstep
      refine ⟨hlen, fun s hs => ?_⟩
      rw [hval s hs, stratumWeight_cons, lineContrib_skip vdef ys wv s l hproc]
      ring
    · have hstep2 : (if 0 ≤ s' ∧ s' < (samp.length : ℤ) then
          Except.ok (samp.set s'.toNat (samp.getD s'.toNat 0 + w))
          else Except.error Err.index) = Except.ok samp2 := hstep
      by_cases hb : 0 ≤ s' ∧ s' < (samp.length : ℤ)
      · rw [if_pos hb] at hstep2
        simp only [Except.ok.injEq] at hstep2
        subst hstep2
        have hlt : s'.toNat < samp.length := by omega
        constructor
        · rw [hlen, List.length_set]
        · intro s hs
          rw [hval s (by rw [List.length_set]; exact hs),
            stratumWeight_cons, lineContrib_some vdef ys wv s l s' w hproc]
          by_cases hss : s' = (s : ℤ)
          · have hnat : s'.toNat = s := by omega
            rw [hnat] at hlt ⊢
            rw [getD_set_self _ _ _ hs, if_pos hss]
            ring
          · have hnat : s'.toNat ≠ s := by omega
            rw [getD_set_ne _ _ _ _ hnat, if_neg hss]
            ring
      · rw [if_neg hb] at hstep2
        exact absurd hstep2 (by simp)

/-- C6: the aggregator starts from a 33-entry vector of zeros (so the
empty stream returns exactly that), and whenever it completes on a stream
the result has exactly 33 entries, entry s being the sum of the decoded
weights of the records classified into stratum s. -/
theorem getpopw_C6 :
    (∀ (vdef : Vdef) (ys wv : String),
      getpopwLines vdef ys wv [] = .ok (List.replicate 33 0)) ∧
    (∀ (vdef : Vdef) (ys wv : String) (lines : List String) (v : List ℚ),
      getpopwLines vdef ys wv lines = .ok v →
      v.length = 33 ∧
        ∀ s : ℕ, s < 33 → v.getD s 0 = stratumWeight vdef ys wv s lines) := by
  constructor
  · intro vdef ys wv
    rfl
  · intro vdef ys wv lines v h
    obtain ⟨h1, h2⟩ := popwLoop_ok vdef ys wv lines (List.replicate 33 0) v h
    refine ⟨by simpa using h1, fun s hs => ?_⟩
    have h3 := h2 s (by simpa using hs)
    have h0 : (List.replicate 33 (0 : ℚ)).getD s 0 = 0 := by
      simp only [List.getD, List.get?_eq_getElem?, List.getElem?_replicate]
      split <;> rfl
    rw [h0] at h3
    rw [h3]
    ring
/-- C6, witness: on the empty stream the aggregator returns the 33-entry
zero vector, whose entry 0 equals the (empty) stratum-0 weight sum. -/
theorem getpopw_C6_witness :
    (List.replicate 33 (0 : ℚ)).length = 33 ∧
      (List.replicate 33 (0 : ℚ)).getD 0 0 = stratumWeight [] "09" "W" 0 [] := by
  have h := getpopw_C6.2 [] "09" "W" [] (List.replicate 33 0)
    (getpopw_C6.1 [] "09" "W")
  exact ⟨h.1, h.2 0 (by norm_num)⟩

end MEPS
